import Mathlib

/-!
Verification of the io_uring GSource example (io_uring_gsource.c) and the
main-loop lessons of the glib-tutorial repository, against its design
specification.  The C data structures and functions are shallowly embedded
as executable Lean definitions; pointer values are modelled as natural
numbers (0 models NULL, and GPOINTER_TO_INT yields the pointer value as an
integer), file descriptors as natural numbers, and kernel interactions as
explicit state transitions.
-/

namespace GlibTutorial

/-- The G_IO_IN poll condition bit. -/
def G_IO_IN : Nat := 1

/-- GPollFD: descriptor, requested events, returned events. -/
structure GPollFD where
  fd : Nat
  events : Nat
  revents : Nat
deriving Repr, DecidableEq

/-- A completion queue entry: signed result code plus the user-data pointer
value that was attached at submission (0 models NULL). -/
structure Cqe where
  res : Int
  user_data : Nat
deriving Repr, DecidableEq

/-- The operations this example submits. -/
inductive OpCode where
  | write (fd : Nat) (buf : Nat) (len : Nat) (offset : Nat)
  | close (fd : Nat)
deriving Repr, DecidableEq

/-- A submission queue entry: opcode, user-data pointer value, and whether
IOSQE_IO_LINK is set. -/
structure Sqe where
  op : OpCode
  user_data : Nat
  linkFlag : Bool
deriving Repr, DecidableEq

/-- The io_uring ring pair: fixed submission capacity, the not yet submitted
submission entries, the currently visible completion entries in FIFO order
(head of the list = head of the ring), and the total count by which the
completion consumer cursor has been advanced. -/
structure IoUring where
  sqCapacity : Nat
  sq : List Sqe
  cq : List Cqe
  cqConsumed : Nat
deriving Repr, DecidableEq

/-- IoUringSource: the GSource-embedded ring plus its registered poll fd. -/
structure IoUringSource where
  ring : IoUring
  poll_fd : GPollFD
deriving Repr, DecidableEq

/-- Observable actions performed by the backend, in program order. -/
inductive Event where
  | handle (res : Int)
  | free (ptr : Nat)
  | closeFd (fd : Nat)
  | cqAdvance (n : Nat)
  | callback
deriving Repr, DecidableEq

/-- Body of the io_uring_for_each_cqe loop in the revised
io_uring_source_dispatch: log the signed result (the per-entry completion
handling), then g_free the user-data pointer iff it is non-NULL and its
GPOINTER_TO_INT value exceeds 1024. -/
def processCqe (c : Cqe) : List Event :=
  Event.handle c.res ::
    (if c.user_data ≠ 0 ∧ 1024 < c.user_data then [Event.free c.user_data] else [])

/-- Body of the same loop in the original revision of
io_uring_source_dispatch: g_free the user-data pointer iff it is non-NULL. -/
def processCqeOrig (c : Cqe) : List Event :=
  Event.handle c.res :: (if c.user_data ≠ 0 then [Event.free c.user_data] else [])

/-- io_uring_cq_advance: advance the completion consumer cursor by n,
letting the kernel reuse the first n visible slots. -/
def io_uring_cq_advance (r : IoUring) (n : Nat) : IoUring :=
  { r with cq := r.cq.drop n, cqConsumed := r.cqConsumed + n }

/-- io_uring_source_dispatch (revised file): iterate over every currently
visible completion entry in FIFO order, handling each (and conditionally
freeing its payload), then mark all of them seen with a single
io_uring_cq_advance by the count drained, then invoke the user callback if
one is set.  Returns the event trace in program order and the new state. -/
def io_uring_source_dispatch (s : IoUringSource) (hasCallback : Bool) :
    List Event × IoUringSource :=
  let drained := s.ring.cq
  let evs := (drained.map processCqe).flatten
    ++ Event.cqAdvance drained.length ::
      (if hasCallback then [Event.callback] else [])
  (evs, { s with ring := io_uring_cq_advance s.ring drained.length })

/-- io_uring_source_dispatch (original revision): same drain-then-advance
shape, with the unconditional non-NULL free. -/
def io_uring_source_dispatch_orig (s : IoUringSource) (hasCallback : Bool) :
    List Event × IoUringSource :=
  let drained := s.ring.cq
  let evs := (drained.map processCqeOrig).flatten
    ++ Event.cqAdvance drained.length ::
      (if hasCallback then [Event.callback] else [])
  (evs, { s with ring := io_uring_cq_advance s.ring drained.length })

/-- The signed results passed to the per-entry completion handling, in trace
order. -/
def handleResults (tr : List Event) : List Int :=
  tr.filterMap fun e => match e with | .handle r => some r | _ => none

/-- The consumer-cursor advances occurring in a trace, in order. -/
def advanceEvents (tr : List Event) : List Nat :=
  tr.filterMap fun e => match e with | .cqAdvance n => some n | _ => none

/-- The pointers passed to g_free in a trace, in order. -/
def freedPtrs (tr : List Event) : List Nat :=
  tr.filterMap fun e => match e with | .free p => some p | _ => none

theorem handleResults_append (a b : List Event) :
    handleResults (a ++ b) = handleResults a ++ handleResults b := by
  simp [handleResults]

theorem advanceEvents_append (a b : List Event) :
    advanceEvents (a ++ b) = advanceEvents a ++ advanceEvents b := by
  simp [advanceEvents]

theorem freedPtrs_append (a b : List Event) :
    freedPtrs (a ++ b) = freedPtrs a ++ freedPtrs b := by
  simp [freedPtrs]

theorem handleResults_processCqe (c : Cqe) : handleResults (processCqe c) = [c.res] := by
  unfold processCqe handleResults
  split <;> simp

theorem handleResults_processCqeOrig (c : Cqe) :
    handleResults (processCqeOrig c) = [c.res] := by
  unfold processCqeOrig handleResults
  split <;> simp

theorem advanceEvents_processCqe (c : Cqe) : advanceEvents (processCqe c) = [] := by
  unfold processCqe advanceEvents
  split <;> simp

theorem advanceEvents_processCqeOrig (c : Cqe) :
    advanceEvents (processCqeOrig c) = [] := by
  unfold processCqeOrig advanceEvents
  split <;> simp

theorem handleResults_flatten (pc : Cqe → List Event)
    (h : ∀ c, handleResults (pc c) = [c.res]) (l : List Cqe) :
    handleResults ((l.map pc).flatten) = l.map Cqe.res := by
  induction l with
  | nil => simp [handleResults]
  | cons c cs ih => simp [handleResults_append, h, ih]

theorem advanceEvents_flatten (pc : Cqe → List Event)
    (h : ∀ c, advanceEvents (pc c) = []) (l : List Cqe) :
    advanceEvents ((l.map pc).flatten) = [] := by
  induction l with
  | nil => simp [advanceEvents]
  | cons c cs ih => simp [advanceEvents_append, h, ih]

theorem drainTrace_spec (pc : Cqe → List Event)
    (h1 : ∀ c, handleResults (pc c) = [c.res])
    (h2 : ∀ c, advanceEvents (pc c) = []) (l : List Cqe) (cb : Bool) :
    handleResults ((l.map pc).flatten
        ++ Event.cqAdvance l.length :: (if cb then [Event.callback] else []))
      = l.map Cqe.res
    ∧ advanceEvents ((l.map pc).flatten
        ++ Event.cqAdvance l.length :: (if cb then [Event.callback] else []))
      = [l.length]
    ∧ handleResults ((l.map pc).flatten) = l.map Cqe.res
    ∧ advanceEvents ((l.map pc).flatten) = [] := by
  refine ⟨?_, ?_, handleResults_flatten pc h1 l, advanceEvents_flatten pc h2 l⟩
  · rw [handleResults_append, handleResults_flatten pc h1 l]
    cases cb <;> simp [handleResults]
  · rw [advanceEvents_append, advanceEvents_flatten pc h2 l]
    cases cb <;> simp [advanceEvents]

/-- C1: every call to dispatch drains all completion entries visible at that
moment in FIFO order, invoking each drained entry's completion handling with
its signed result code, and only after those invocations advances the
completion ring's consumer cursor — exactly once, by exactly the number of
entries drained.  Stated for both revisions of io_uring_source_dispatch: the
trace of handled results equals the visible entries' results in ring order,
exactly one cursor advance occurs, it advances by the drained count, and it
is preceded by all of the per-entry handling. -/
theorem dispatch_drains_all_fifo_then_advances_once
    (s : IoUringSource) (cb : Bool) :
    (handleResults (io_uring_source_dispatch s cb).1 = s.ring.cq.map Cqe.res
      ∧ advanceEvents (io_uring_source_dispatch s cb).1 = [s.ring.cq.length]
      ∧ (∃ pre post, (io_uring_source_dispatch s cb).1
            = pre ++ Event.cqAdvance s.ring.cq.length :: post
          ∧ handleResults pre = s.ring.cq.map Cqe.res
          ∧ advanceEvents pre = [])
      ∧ (io_uring_source_dispatch s cb).2.ring.cqConsumed
          = s.ring.cqConsumed + s.ring.cq.length)
    ∧ (handleResults (io_uring_source_dispatch_orig s cb).1 = s.ring.cq.map Cqe.res
      ∧ advanceEvents (io_uring_source_dispatch_orig s cb).1 = [s.ring.cq.length]
      ∧ (∃ pre post, (io_uring_source_dispatch_orig s cb).1
            = pre ++ Event.cqAdvance s.ring.cq.length :: post
          ∧ handleResults pre = s.ring.cq.map Cqe.res
          ∧ advanceEvents pre = [])
      ∧ (io_uring_source_dispatch_orig s cb).2.ring.cqConsumed
          = s.ring.cqConsumed + s.ring.cq.length) := by
  have h := drainTrace_spec processCqe handleResults_processCqe
    advanceEvents_processCqe s.ring.cq cb
  have h2 := drainTrace_spec processCqeOrig handleResults_processCqeOrig
    advanceEvents_processCqeOrig s.ring.cq cb
  constructor
  · exact ⟨h.1, h.2.1,
      ⟨(s.ring.cq.map processCqe).flatten, (if cb then [Event.callback] else []),
        rfl, h.2.2.1, h.2.2.2⟩, rfl⟩
  · exact ⟨h2.1, h2.2.1,
      ⟨(s.ring.cq.map processCqeOrig).flatten, (if cb then [Event.callback] else []),
        rfl, h2.2.2.1, h2.2.2.2⟩, rfl⟩

theorem freedPtrs_processCqe (c : Cqe) :
    freedPtrs (processCqe c) = if 1024 < c.user_data then [c.user_data] else [] := by
  unfold processCqe freedPtrs
  rcases Nat.lt_or_ge 1024 c.user_data with h | h
  · rw [if_pos ⟨by omega, h⟩, if_pos h]; simp
  · rw [if_neg (by rintro ⟨-, h2⟩; omega), if_neg (by omega)]; simp

theorem freedPtrs_flatten_processCqe (l : List Cqe) :
    freedPtrs ((l.map processCqe).flatten)
      = (l.filter fun c => decide (1024 < c.user_data)).map Cqe.user_data := by
  induction l with
  | nil => simp [freedPtrs]
  | cons c cs ih =>
      rw [List.map_cons, List.flatten_cons, freedPtrs_append, ih,
        freedPtrs_processCqe, List.filter_cons]
      rcases Nat.lt_or_ge 1024 c.user_data with h | h
      · rw [if_pos h, if_pos (by simpa using h)]; simp
      · rw [if_neg (by omega), if_neg (by simpa using Nat.not_lt.mpr h)]; simp

/-- C9: in the revised dispatch, a drained completion entry's payload pointer
is freed iff it is non-null with value exceeding 1024 — the freed pointers
are exactly the payloads of the drained entries whose value exceeds 1024; an
entry carrying a small value (such as the close operation's file-descriptor
payload, at most 1024) is never freed, and an entry whose payload exceeds
1024 (a typical heap buffer address) is freed. -/
theorem dispatch_frees_by_magnitude (s : IoUringSource) (cb : Bool) :
    freedPtrs (io_uring_source_dispatch s cb).1
      = (s.ring.cq.filter fun c => decide (1024 < c.user_data)).map Cqe.user_data
    ∧ (∀ c ∈ s.ring.cq, c.user_data ≤ 1024 →
        c.user_data ∉ freedPtrs (io_uring_source_dispatch s cb).1)
    ∧ (∀ c ∈ s.ring.cq, 1024 < c.user_data →
        c.user_data ∈ freedPtrs (io_uring_source_dispatch s cb).1) := by
  have key : freedPtrs (io_uring_source_dispatch s cb).1
      = (s.ring.cq.filter fun c => decide (1024 < c.user_data)).map Cqe.user_data := by
    show freedPtrs ((s.ring.cq.map processCqe).flatten ++ _) = _
    rw [freedPtrs_append, freedPtrs_flatten_processCqe]
    cases cb <;> simp [freedPtrs]
  refine ⟨key, ?_, ?_⟩
  · intro c _ hle hmem
    rw [key] at hmem
    rcases List.mem_map.mp hmem with ⟨c2, hc2, he⟩
    have := List.of_mem_filter hc2
    simp only [decide_eq_true_eq] at this
    omega
  · intro c hc hgt
    rw [key]
    exact List.mem_map.mpr ⟨c, List.mem_filter.mpr ⟨hc, by simpa using hgt⟩, rfl⟩

/-- A concrete ring state for exercising dispatch: a completed 64-byte write
whose buffer lives at address 2000, followed by a completed close whose
payload is the file descriptor 5. -/
def c9State : IoUringSource :=
  { ring := { sqCapacity := 8, sq := [],
              cq := [{ res := 64, user_data := 2000 }, { res := 0, user_data := 5 }],
              cqConsumed := 0 },
    poll_fd := { fd := 7, events := G_IO_IN, revents := G_IO_IN } }

/-- Witness for C9 at a concrete state: the close entry's fd payload 5 is not
freed, while the write buffer at address 2000 is freed. -/
theorem dispatch_frees_by_magnitude_witness :
    (5 : Nat) ∉ freedPtrs (io_uring_source_dispatch c9State true).1
    ∧ (2000 : Nat) ∈ freedPtrs (io_uring_source_dispatch c9State true).1 := by
  refine ⟨(dispatch_frees_by_magnitude c9State true).2.1
    { res := 0, user_data := 5 } (by decide) (by decide), ?_⟩
  exact (dispatch_frees_by_magnitude c9State true).2.2
    { res := 64, user_data := 2000 } (by decide) (by decide)

/-- io_uring_source_prepare: never declares readiness and sets the timeout
hint to -1 (the source relies entirely on poll). -/
def io_uring_source_prepare (s : IoUringSource) : Bool × Int := (false, -1)

/-- io_uring_source_check: ready iff the poll phase observed G_IO_IN on the
registered ring descriptor; reads only poll_fd.revents and consumes
nothing. -/
def io_uring_source_check (s : IoUringSource) : Bool :=
  decide (s.poll_fd.revents &&& G_IO_IN ≠ 0)

/-- The poll phase of an iteration, restricted to this source's registered
descriptor: the ring fd is level-triggered readable (G_IO_IN) iff the
completion ring is non-empty at poll time, and poll records the observation
in revents. -/
def pollStep (s : IoUringSource) : IoUringSource :=
  { s with poll_fd :=
      { s.poll_fd with revents := if s.ring.cq = [] then 0 else G_IO_IN } }

/-- This source's per-iteration readiness under the prepare/poll/check
protocol: ready when prepare declared readiness, or else when check reports
ready after the poll observation. -/
def sourceReady (s : IoUringSource) : Bool :=
  (io_uring_source_prepare s).1 || io_uring_source_check (pollStep s)

/-- The kernel publishes completion entries by appending them to the visible
completion ring in FIFO order. -/
def deliverCompletions (s : IoUringSource) (new : List Cqe) : IoUringSource :=
  { s with ring := { s.ring with cq := s.ring.cq ++ new } }

/-- Construction-time actions of io_uring_source_new. -/
inductive CEvent where
  | sourceNew
  | sourceUnref
  | addPoll
deriving Repr, DecidableEq

/-- The freshly initialized source on successful construction: 8 submission
slots, empty rings, and the ring descriptor registered as the sole poll
target with G_IO_IN interest. -/
def initialIoUringSource (ringFd : Nat) : IoUringSource :=
  { ring := { sqCapacity := 8, sq := [], cq := [], cqConsumed := 0 },
    poll_fd := { fd := ringFd, events := G_IO_IN, revents := 0 } }

/-- io_uring_source_new: allocate the source, then call
io_uring_queue_init_params (whose return value initRet is negative when the
kernel/platform lacks io_uring); on failure unref the partially built source
and return NULL, otherwise register the ring fd as the poll target and
return the source. -/
def io_uring_source_new (initRet : Int) (ringFd : Nat) :
    Option IoUringSource × List CEvent :=
  if initRet < 0 then
    (none, [CEvent.sourceNew, CEvent.sourceUnref])
  else
    (some (initialIoUringSource ringFd), [CEvent.sourceNew, CEvent.addPoll])

/-- The construction phase of main: create the source; when construction
failed, exit with code 1 without ever attaching the source or running the
loop. -/
def mainConstruct (initRet : Int) (ringFd : Nat) : Except Nat IoUringSource :=
  match (io_uring_source_new initRet ringFd).1 with
  | none => Except.error 1
  | some s => Except.ok s

/-- Outcome of submit_write_operation: whether it reported success, the
resulting source state, its side events (synchronous closes and frees on the
failure/fallback paths), and the batch of submission entries flushed to the
kernel by the final io_uring_submit call. -/
structure SubmitResult where
  ok : Bool
  src : IoUringSource
  events : List Event
  kernelBatch : List Sqe
deriving Repr, DecidableEq

/-- submit_write_operation: with the file already open as fd and the data
duplicated into a buffer (both modelled by their values), obtain an SQE —
when none is free (submission ring full) close the fd, free the buffer and
report FALSE with the ring untouched; otherwise prepare the write with
user_data = buffer and the IOSQE_IO_LINK flag, obtain a second SQE for the
linked close with user_data = fd (falling back to a synchronous close when
the ring is full), and let io_uring_submit flush all pending submission
entries to the kernel, reporting TRUE. -/
def submit_write_operation (s : IoUringSource) (fd buffer length : Nat) :
    SubmitResult :=
  if s.ring.sq.length < s.ring.sqCapacity then
    let writeSqe : Sqe :=
      { op := OpCode.write fd buffer length 0, user_data := buffer, linkFlag := true }
    let r1 : IoUring := { s.ring with sq := s.ring.sq ++ [writeSqe] }
    let step2 : IoUring × List Event :=
      if r1.sq.length < r1.sqCapacity then
        ({ r1 with sq := r1.sq ++
            [{ op := OpCode.close fd, user_data := fd, linkFlag := false }] }, [])
      else
        (r1, [Event.closeFd fd])
    { ok := true,
      src := { s with ring := { step2.1 with sq := [] } },
      events := step2.2,
      kernelBatch := step2.1.sq }
  else
    { ok := false, src := s,
      events := [Event.closeFd fd, Event.free buffer], kernelBatch := [] }

/-- The ECANCELED errno value. -/
def ECANCELED : Int := 125

/-- One kernel completion: the CQE made visible, plus whether the kernel
actually began executing the operation. -/
structure KernelCompletion where
  cqe : Cqe
  executed : Bool
deriving Repr, DecidableEq

/-- Kernel execution of a flushed submission batch, following the
IOSQE_IO_LINK semantics documented in submit_write_operation ("the next
operation only executes if this succeeds"): operations are taken strictly in
submission order; when a link-flagged operation fails, the next operation is
not executed and instead completes with -ECANCELED (a skipped operation that
is itself link-flagged propagates the cancellation down its chain).
`results` gives the signed result each operation produces when actually
executed; `skip` records whether the previous operation was a failed or
skipped link head. -/
def kernelRun (results : OpCode → Int) : List Sqe → Bool → List KernelCompletion
  | [], _ => []
  | sqe :: rest, skip =>
    if skip then
      { cqe := { res := -ECANCELED, user_data := sqe.user_data }, executed := false }
        :: kernelRun results rest sqe.linkFlag
    else
      { cqe := { res := results sqe.op, user_data := sqe.user_data }, executed := true }
        :: kernelRun results rest (sqe.linkFlag && decide (results sqe.op < 0))

/-- The kernel consuming all pending submission entries (the drain the
backpressure contract waits for). -/
def drainSubmissions (s : IoUringSource) : IoUringSource :=
  { s with ring := { s.ring with sq := [] } }

/-- C10: prepare always reports not-ready and sets the timeout hint to -1,
so this source never declares unconditional readiness, never bounds the poll
wait, and its per-iteration readiness is established exactly by the check of
the poll wait's observation of the ring descriptor. -/
theorem prepare_never_ready_no_timeout (s : IoUringSource) :
    io_uring_source_prepare s = (false, -1)
    ∧ sourceReady s = io_uring_source_check (pollStep s) := by
  exact ⟨rfl, by simp [sourceReady, io_uring_source_prepare]⟩

/-- A ring state in which a completion became visible only after the poll
phase: the completion ring holds one entry while revents records no
readiness. -/
def lateCompletionState : IoUringSource :=
  { ring := { sqCapacity := 8, sq := [],
              cq := [{ res := 64, user_data := 2000 }], cqConsumed := 0 },
    poll_fd := { fd := 7, events := G_IO_IN, revents := 0 } }

/-- Counterexample to C4 as stated: check consults only the recorded poll
revents and never the completion ring itself, so at a state whose completion
ring is non-empty but whose last poll observed nothing, check reports not
ready — refuting "ready iff the completion ring is non-empty at the time of
the check". -/
theorem check_misses_late_completion :
    lateCompletionState.ring.cq ≠ []
    ∧ io_uring_source_check lateCompletionState = false := by decide

/-- C4 amended: check consumes nothing (the poll/check pipeline leaves the
ring untouched), and it reports the source ready iff the poll wait observed
the ring descriptor readable — equivalently, iff the completion ring was
non-empty at poll time rather than at check time. -/
theorem check_reflects_poll_observation (s : IoUringSource) :
    (io_uring_source_check (pollStep s) = true ↔ s.ring.cq ≠ [])
    ∧ (pollStep s).ring = s.ring := by
  refine ⟨?_, rfl⟩
  by_cases h : s.ring.cq = [] <;>
    simp [io_uring_source_check, pollStep, h, G_IO_IN]

/-- C7: when the kernel/platform lacks io_uring (negative init return),
construction fails and the failure is surfaced to the caller at construction
time: io_uring_source_new unrefs the partially built source and returns
NULL, and main's construction phase exits with code 1 without producing a
source that could ever be iterated. -/
theorem construction_failure_surfaced_at_construction
    (initRet : Int) (ringFd : Nat) (h : initRet < 0) :
    (io_uring_source_new initRet ringFd).1 = none
    ∧ CEvent.sourceUnref ∈ (io_uring_source_new initRet ringFd).2
    ∧ mainConstruct initRet ringFd = Except.error 1 := by
  simp [io_uring_source_new, mainConstruct, h]

/-- Witness for C7 at the concrete init failure -38 (ENOSYS). -/
theorem construction_failure_witness :
    (io_uring_source_new (-38) 7).1 = none
    ∧ CEvent.sourceUnref ∈ (io_uring_source_new (-38) 7).2
    ∧ mainConstruct (-38) 7 = Except.error 1 :=
  construction_failure_surfaced_at_construction (-38) 7 (by decide)

/-- C6: when the submission ring has no free slot, submit reports failure
(the queue-full path returns FALSE) leaving the entire source state — both
rings — untouched, and once the pending submission entries have been drained
a subsequent submit succeeds. -/
theorem submit_queue_full_backpressure (s : IoUringSource) (fd buffer length : Nat)
    (hfull : s.ring.sqCapacity ≤ s.ring.sq.length)
    (hcap : 0 < s.ring.sqCapacity) :
    (submit_write_operation s fd buffer length).ok = false
    ∧ (submit_write_operation s fd buffer length).src = s
    ∧ (submit_write_operation (drainSubmissions s) fd buffer length).ok = true := by
  unfold submit_write_operation drainSubmissions
  rw [if_neg (by omega)]
  refine ⟨rfl, rfl, ?_⟩
  rw [if_pos (by simpa using hcap)]

/-- A submission ring with no free slot: capacity 8, eight pending entries. -/
def fullSqState : IoUringSource :=
  { ring := { sqCapacity := 8,
              sq := List.replicate 8
                { op := OpCode.close 3, user_data := 0, linkFlag := false },
              cq := [], cqConsumed := 0 },
    poll_fd := { fd := 7, events := G_IO_IN, revents := 0 } }

/-- Witness for C6 at the concrete full ring. -/
theorem submit_queue_full_backpressure_witness :
    (submit_write_operation fullSqState 3 2000 64).ok = false
    ∧ (submit_write_operation fullSqState 3 2000 64).src = fullSqState
    ∧ (submit_write_operation (drainSubmissions fullSqState) 3 2000 64).ok = true :=
  submit_queue_full_backpressure fullSqState 3 2000 64 (by decide) (by decide)

theorem kernelRun_preserves_order (results : OpCode → Int) (l : List Sqe) (sk : Bool) :
    (kernelRun results l sk).map (fun k => k.cqe.user_data) = l.map Sqe.user_data := by
  induction l generalizing sk with
  | nil => rfl
  | cons x xs ih => cases sk <;> simp [kernelRun, ih]

/-- The write entry of the concrete failing chain: a link-flagged 1-byte
write at fd 3 from a buffer at address 2000. -/
def cexWriteSqe : Sqe :=
  { op := OpCode.write 3 2000 1 0, user_data := 2000, linkFlag := true }

/-- The linked close of fd 3 that follows the write. -/
def cexCloseSqe : Sqe := { op := OpCode.close 3, user_data := 3, linkFlag := false }

/-- Results in which the write fails with -ENOSPC (-28) while a close would
succeed. -/
def cexResults : OpCode → Int
  | OpCode.write _ _ _ _ => -28
  | OpCode.close _ => 0

/-- Counterexample to C3 as stated: in the submitted chain write(link) →
close, the write fails and the kernel does not attempt the close — its
completion records executed = false with result -ECANCELED — refuting that
the successor of a failed linked operation is still attempted. -/
theorem failed_link_successor_not_attempted_cex :
    (kernelRun cexResults [cexWriteSqe, cexCloseSqe] false).map KernelCompletion.executed
      = [true, false]
    ∧ ((kernelRun cexResults [cexWriteSqe, cexCloseSqe] false).map fun k => k.cqe.res)
      = [-28, -ECANCELED] := by decide

/-- C3 amended: the kernel handles a submitted batch strictly in submission
order (the completion stream preserves the submitted entries' order and user
data, so a successor is never begun before its predecessor completes), and
when a link-flagged operation fails its successor is NOT attempted: it is
skipped, completing with -ECANCELED without being executed. -/
theorem link_failure_skips_successor (results : OpCode → Int)
    (a b : Sqe) (rest : List Sqe)
    (ha : a.linkFlag = true) (hfail : results a.op < 0) :
    (∀ (l : List Sqe) (sk : Bool),
        (kernelRun results l sk).map (fun k => k.cqe.user_data) = l.map Sqe.user_data)
    ∧ ∃ tail, kernelRun results (a :: b :: rest) false
        = { cqe := { res := results a.op, user_data := a.user_data }, executed := true }
          :: { cqe := { res := -ECANCELED, user_data := b.user_data }, executed := false }
          :: tail := by
  refine ⟨kernelRun_preserves_order results, kernelRun results rest b.linkFlag, ?_⟩
  have h1 : (a.linkFlag && decide (results a.op < 0)) = true := by
    simp [ha, hfail]
  simp [kernelRun, h1]

/-- Witness for C3's amended statement at the concrete failing chain. -/
theorem link_failure_skips_successor_witness :
    ((kernelRun cexResults [cexWriteSqe, cexCloseSqe] false).map
        fun k => k.cqe.user_data) = [2000, 3]
    ∧ ∃ tail, kernelRun cexResults [cexWriteSqe, cexCloseSqe] false
        = { cqe := { res := cexResults cexWriteSqe.op,
                     user_data := cexWriteSqe.user_data }, executed := true }
          :: { cqe := { res := -ECANCELED, user_data := cexCloseSqe.user_data },
               executed := false } :: tail := by
  have h := link_failure_skips_successor cexResults cexWriteSqe cexCloseSqe []
    (by decide) (by decide)
  exact ⟨h.1 [cexWriteSqe, cexCloseSqe] false, h.2⟩

/-- The leak scenario of C2: a fresh source, then submit_write_operation
with the file open at fd 3 and the duplicated 64-byte buffer allocated at
address 100 (a heap value not exceeding 1024). -/
def leakSubmit : SubmitResult :=
  submit_write_operation (initialIoUringSource 7) 3 100 64

/-- Operation results for the leak scenario: the write succeeds writing all
64 bytes; the close succeeds. -/
def leakResults : OpCode → Int
  | OpCode.write _ _ len _ => len
  | OpCode.close _ => 0

/-- The leak scenario end to end: the kernel executes the flushed batch, its
completions become visible, poll observes the ring readable, and dispatch
drains them. -/
def leakDispatch : List Event × IoUringSource :=
  io_uring_source_dispatch
    (pollStep (deliverCompletions leakSubmit.src
      ((kernelRun leakResults leakSubmit.kernelBatch false).map KernelCompletion.cqe)))
    true

/-- All backend events of the leak scenario, in order. -/
def leakTrace : List Event := leakSubmit.events ++ leakDispatch.1

/-- C2 fails on the code: the submit is accepted (ok = TRUE), its write
completes with 64 bytes and that completion is observed and drained (handle
64 occurs in the dispatch trace), yet the accepted buffer at address 100 is
never released — the dispatch free heuristic skips every payload value not
exceeding 1024, so the whole trace contains no free at all: the buffer leaks
instead of being released exactly once after the drain. -/
theorem accepted_buffer_never_released :
    leakSubmit.ok = true
    ∧ Event.handle 64 ∈ leakDispatch.1
    ∧ Event.free 100 ∉ leakTrace
    ∧ freedPtrs leakTrace = [] := by decide

/-- A schedulable source as one iteration sees it: its priority (lower value
dispatched earlier), its position in attachment order, and whether this
iteration found it ready. -/
structure SpecSource where
  priority : Int
  attachOrder : Nat
  ready : Bool
deriving Repr, DecidableEq

/-- The dispatch precedence the spec promises: strictly smaller priority
value, or equal priority and earlier attachment. -/
def dispatchBefore (a b : SpecSource) : Prop :=
  a.priority < b.priority ∨ (a.priority = b.priority ∧ a.attachOrder < b.attachOrder)

instance : DecidableRel dispatchBefore := fun a b => by
  unfold dispatchBefore; infer_instance

/-- Modelled from the spec: GLib's per-iteration dispatch step
(g_main_context_dispatch and the GMainContext source table are not part of
this repository's sources; priority_example.c and the idle lesson only
attach sources and observe the order).  Spec §4.3 step 5 sorts the ready
sources by (priority ascending, attachment-order ascending).  This is the
insertion of one source into an already-sorted dispatch list: it is placed
after every source of strictly smaller priority and before the rest, so a
source keeps its place ahead of equal-priority sources attached later. -/
def insertByPriority (x : SpecSource) : List SpecSource → List SpecSource
  | [] => [x]
  | y :: ys =>
      if y.priority < x.priority then y :: insertByPriority x ys
      else x :: y :: ys

/-- Modelled from the spec: stable sort of the ready sources by priority,
inserting each source (taken in attachment order) into the sorted rest. -/
def sortByPriority : List SpecSource → List SpecSource
  | [] => []
  | x :: xs => insertByPriority x (sortByPriority xs)

/-- Modelled from the spec: the dispatch order of one iteration — collect
the ready sources in attachment order, then sort stably by priority. -/
def dispatchOrder (attached : List SpecSource) : List SpecSource :=
  sortByPriority (attached.filter fun s => s.ready)

theorem dispatchBefore_le {a b : SpecSource} (h : dispatchBefore a b) :
    a.priority ≤ b.priority := by
  rcases h with h | ⟨h, -⟩
  · exact le_of_lt h
  · exact le_of_eq h

theorem insertByPriority_perm (x : SpecSource) (l : List SpecSource) :
    (insertByPriority x l).Perm (x :: l) := by
  induction l with
  | nil => exact List.Perm.refl _
  | cons y ys ih =>
      unfold insertByPriority
      split
      · exact (ih.cons y).trans (List.Perm.swap x y ys)
      · exact List.Perm.refl _

theorem sortByPriority_perm (l : List SpecSource) : (sortByPriority l).Perm l := by
  induction l with
  | nil => exact List.Perm.refl _
  | cons x xs ih => exact (insertByPriority_perm x _).trans (ih.cons x)

theorem insertByPriority_pairwise (x : SpecSource) (l : List SpecSource)
    (hl : l.Pairwise dispatchBefore)
    (hx : ∀ y ∈ l, x.attachOrder < y.attachOrder) :
    (insertByPriority x l).Pairwise dispatchBefore := by
  induction l with
  | nil => simp [insertByPriority]
  | cons y ys ih =>
      rcases List.pairwise_cons.mp hl with ⟨hy, hys⟩
      unfold insertByPriority
      split
      case isTrue hlt =>
        refine List.pairwise_cons.mpr
          ⟨?_, ih hys fun z hz => hx z (List.mem_cons_of_mem y hz)⟩
        intro z hz
        rcases List.mem_cons.mp ((insertByPriority_perm x ys).mem_iff.mp hz) with rfl | hz2
        · exact Or.inl hlt
        · exact hy z hz2
      case isFalse hge =>
        refine List.pairwise_cons.mpr ⟨?_, hl⟩
        intro z hz
        have hxy : x.priority ≤ y.priority := not_lt.mp hge
        rcases List.mem_cons.mp hz with rfl | hz2
        · rcases lt_or_eq_of_le hxy with h | h
          · exact Or.inl h
          · exact Or.inr ⟨h, hx z (List.mem_cons_self z ys)⟩
        · have hxz : x.priority ≤ z.priority :=
            le_trans hxy (dispatchBefore_le (hy z hz2))
          rcases lt_or_eq_of_le hxz with h | h
          · exact Or.inl h
          · exact Or.inr ⟨h, hx z (List.mem_cons_of_mem y hz2)⟩

theorem sortByPriority_pairwise (l : List SpecSource)
    (hord : l.Pairwise fun a b => a.attachOrder < b.attachOrder) :
    (sortByPriority l).Pairwise dispatchBefore := by
  induction l with
  | nil => exact List.Pairwise.nil
  | cons x xs ih =>
      rcases List.pairwise_cons.mp hord with ⟨hx, hxs⟩
      exact insertByPriority_pairwise x (sortByPriority xs) (ih hxs)
        fun y hy => hx y ((sortByPriority_perm xs).mem_iff.mp hy)

/-- C5: in one iteration in which several attached sources are ready, the
dispatch order is sorted by the precedence "strictly smaller priority value,
or equal priority and earlier attachment": sources of distinct priorities go
in ascending priority order, equal-priority sources go in attachment (FIFO)
order, and the dispatched sources are exactly the ready ones, each once.
The hypothesis states that the attachment positions are recorded in
attachment order. -/
theorem dispatch_priority_then_attachment (attached : List SpecSource)
    (hord : attached.Pairwise fun a b => a.attachOrder < b.attachOrder) :
    (dispatchOrder attached).Pairwise dispatchBefore
    ∧ (dispatchOrder attached).Perm (attached.filter fun s => s.ready) := by
  constructor
  · exact sortByPriority_pairwise _
      (List.Pairwise.sublist (List.filter_sublist _) hord)
  · exact sortByPriority_perm _

/-- The scenario of priority_example.c with the idle sources included, all
ready at once: LOW (300), DEFAULT (0), HIGH (-100), DEFAULT_IDLE (200),
HIGH_IDLE (100), attached in that order. -/
def exampleAttached : List SpecSource :=
  [{ priority := 300, attachOrder := 0, ready := true },
   { priority := 0, attachOrder := 1, ready := true },
   { priority := -100, attachOrder := 2, ready := true },
   { priority := 200, attachOrder := 3, ready := true },
   { priority := 100, attachOrder := 4, ready := true }]

/-- Witness for C5 at the priority_example scenario. -/
theorem dispatch_priority_then_attachment_witness :
    exampleAttached.Pairwise (fun a b => a.attachOrder < b.attachOrder)
    ∧ (dispatchOrder exampleAttached).Pairwise dispatchBefore
    ∧ (dispatchOrder exampleAttached).Perm
        (exampleAttached.filter fun s => s.ready) := by
  have h := dispatch_priority_then_attachment exampleAttached (by decide)
  exact ⟨by decide, h.1, h.2⟩

/-- Modelled from the spec: GLib's per-thread default-context stack
(g_main_context_push_thread_default and friends are not part of this
repository's sources; context_threading.c only calls them).  Contexts are
identified by handles.  Push makes the context the new top of the calling
thread's stack. -/
def push_thread_default (ctx : Nat) (stack : List Nat) : List Nat :=
  ctx :: stack

/-- Modelled from the spec: pop requires the popped context to be the
current top (popping a non-top context is an error, modelled as none) and
restores the stack below it. -/
def pop_thread_default (ctx : Nat) (stack : List Nat) : Option (List Nat) :=
  match stack with
  | [] => none
  | top :: rest => if top = ctx then some rest else none

/-- Modelled from the spec: the current thread-default context is the top of
the calling thread's stack, or the process-wide default when it is empty. -/
def get_thread_default (stack : List Nat) (processDefault : Nat) : Nat :=
  stack.headD processDefault

/-- C8: after push_default(ctx) the thread's current() equals ctx, and the
balanced pop_default(ctx) succeeds and restores exactly the prior stack, so
current() again returns the value it had before the push — the prior top, or
the process-wide default when the stack was empty. -/
theorem push_pop_thread_default_roundtrip
    (ctx processDefault : Nat) (stack : List Nat) :
    get_thread_default (push_thread_default ctx stack) processDefault = ctx
    ∧ pop_thread_default ctx (push_thread_default ctx stack) = some stack
    ∧ get_thread_default
        ((pop_thread_default ctx (push_thread_default ctx stack)).getD [])
        processDefault
      = get_thread_default stack processDefault := by
  refine ⟨rfl, ?_, ?_⟩ <;>
    simp [push_thread_default, pop_thread_default, get_thread_default]

end GlibTutorial
